import Mathlib

/-!
Verification of the LinguaLens annotation layout and compositing engine.

The embedding mirrors the TypeScript source: the `handleDownload` export
compositor (coordinate conversion, label placement heuristic, user-offset
application, skip rule), the `handleTextChange` in-place text editor, the
`labelOffsets` record semantics, and the `processTranslation` state
transition.  Numbers are modelled by `ℚ` (exact rational arithmetic in
place of IEEE doubles); canvas text measurement is a parameter.
-/

/-- A detected text region: original text, its translation, and a
normalized bounding box `[ymin, xmin, ymax, xmax]` on a 0–1000 scale.
Mirrors the `Annotation` record of the source (`box_2d` destructured as
`const [ymin, xmin, ymax, xmax] = ann.box_2d`). -/
structure Box2d where
  ymin : ℚ
  xmin : ℚ
  ymax : ℚ
  xmax : ℚ
deriving Repr, DecidableEq

/-- One annotation as consumed by the overlay renderer and compositor. -/
structure Annotation where
  original : String
  translation : String
  box_2d : Box2d
deriving Repr, DecidableEq

/-- A pixel rectangle `{x, y, w, h}`. -/
structure Rect where
  x : ℚ
  y : ℚ
  w : ℚ
  h : ℚ
deriving Repr, DecidableEq

/-- A user-dragged label offset `{x, y}` stored on the normalized
0–1000 scale (source: `labelOffsets: Record<number, {x, y}>`). -/
structure Offset where
  x : ℚ
  y : ℚ
deriving Repr, DecidableEq

/-- Conversion of 1000-scale coordinates to pixel coordinates, from the
compositor body:
`x = (xmin / 1000) * canvas.width`, `y = (ymin / 1000) * canvas.height`,
`w = ((xmax - xmin) / 1000) * canvas.width`,
`h = ((ymax - ymin) / 1000) * canvas.height`. -/
def toPixelRect (b : Box2d) (W H : ℚ) : Rect :=
  { x := b.xmin / 1000 * W
    y := b.ymin / 1000 * H
    w := (b.xmax - b.xmin) / 1000 * W
    h := (b.ymax - b.ymin) / 1000 * H }

/-- User offset converted from the 1000 scale to canvas pixels:
`pixelOffsetX = (offset.x / 1000) * canvas.width`,
`pixelOffsetY = (offset.y / 1000) * canvas.height`. -/
def pixelOffset (off : Offset) (W H : ℚ) : ℚ × ℚ :=
  (off.x / 1000 * W, off.y / 1000 * H)

/-- Font size used by the compositor:
`Math.max(16, Math.min(canvas.width * 0.025, 32))`. -/
def fontSize (W : ℚ) : ℚ :=
  max 16 (min (W * (25 / 1000)) 32)

/-- Base (pre-offset) label position, mirroring the compositor block:
`isNearBottom = ymax > 850`; `centerX = x + w / 2`;
`labelX = centerX - boxWidth / 2`;
`labelY = isNearBottom ? y - boxHeight - 4 : y + h + 4`;
then `if (xmin < 100) labelX = x; else if (xmax > 900) labelX = (x + w) - boxWidth`. -/
def baseLabelPos (b : Box2d) (r : Rect) (boxWidth boxHeight : ℚ) : ℚ × ℚ :=
  let isNearBottom := b.ymax > 850
  let centerX := r.x + r.w / 2
  let labelX0 := centerX - boxWidth / 2
  let labelY := if isNearBottom then r.y - boxHeight - 4 else r.y + r.h + 4
  let labelX :=
    if b.xmin < 100 then r.x
    else if b.xmax > 900 then (r.x + r.w) - boxWidth
    else labelX0
  (labelX, labelY)

/-- The offset store: the `labelOffsets` record, keyed by annotation
index.  Absence is `none`. -/
def OffsetStore : Type := Nat → Option Offset

/-- The empty record `{}` (initial value, and the value set by
`setLabelOffsets({})`). -/
def emptyOffsets : OffsetStore := fun _ => none

/-- Record spread update `{...prev, [index]: offset}` of
`handleOffsetChange`. -/
def setOffset (s : OffsetStore) (i : Nat) (off : Offset) : OffsetStore :=
  fun j => if j = i then some off else s j

/-- Lookup with default, from `labelOffsets[i] || { x: 0, y: 0 }`. -/
def getOffset (s : OffsetStore) (i : Nat) : Offset :=
  (s i).getD { x := 0, y := 0 }

/-- JavaScript `String.prototype.trim`: the string with leading and
trailing whitespace removed. -/
def jsTrim (s : String) : String :=
  String.mk
    (((s.data.dropWhile Char.isWhitespace).reverse.dropWhile
        Char.isWhitespace).reverse)

/-- Predicate of the skip rule:
`ann.original.trim() === ann.translation.trim()`. -/
def isIdentical (ann : Annotation) : Bool :=
  jsTrim ann.original == jsTrim ann.translation

/-- Canvas drawing commands emitted by the export compositor (the parts
of the 2D-context calls that carry geometry). -/
inductive DrawCmd where
  | strokeRect (x y w h lineWidth : ℚ)
  | fillRect (x y w h : ℚ)
  | fillText (text : String) (x y : ℚ)
deriving Repr, DecidableEq

/-- The body of the compositor's `forEach`, for one annotation at index
`i`: skip when trimmed texts are identical; otherwise emit the highlight
box stroke, the label background, and the label text.  `measure` stands
for `ctx.measureText(text).width`, a property of the ambient font
engine. -/
def drawAnn (measure : String → ℚ) (W H : ℚ) (offsets : OffsetStore)
    (i : Nat) (ann : Annotation) : List DrawCmd :=
  if isIdentical ann then [] else
    let b := ann.box_2d
    let r := toPixelRect b W H
    let fs := fontSize W
    let padding := fs * (6 / 10)
    let textWidth := measure ann.translation
    let boxHeight := fs + padding
    let boxWidth := textWidth + padding * 2 + 10
    let base := baseLabelPos b r boxWidth boxHeight
    let off := getOffset offsets i
    let p := pixelOffset off W H
    let labelX := base.1 + p.1
    let labelY := base.2 + p.2
    [ DrawCmd.strokeRect r.x r.y r.w r.h (max 2 (W * (3 / 1000))),
      DrawCmd.fillRect labelX labelY boxWidth boxHeight,
      DrawCmd.fillText ann.translation (labelX + padding + 5) (labelY + boxHeight / 2) ]

/-- The whole `imageState.annotations.forEach((ann, i) => ...)` pass of
the compositor, as the concatenated command stream. -/
def drawAll (measure : String → ℚ) (W H : ℚ) (offsets : OffsetStore)
    (anns : List Annotation) : List DrawCmd :=
  (anns.enum.map (fun p => drawAnn measure W H offsets p.1 p.2)).flatten

/-- The slice of React state the claims are about. -/
structure AppState where
  original : Option String
  annotations : List Annotation
  labelOffsets : OffsetStore
  error : Option String
  loading : Bool

/-- `handleTextChange(index, newText)`: copy the annotation list and
replace entry `index` by `{ ...entry, translation: newText }`.  In the
app the index always comes from mapping over the list, so it is in
range; out-of-range indices leave the list unchanged in this embedding. -/
def handleTextChange (s : AppState) (i : Nat) (newText : String) : AppState :=
  { s with annotations :=
      match s.annotations[i]? with
      | some a => s.annotations.set i { a with translation := newText }
      | none => s.annotations }

/-- `processTranslation`, with the outcome of the awaited
`translateImageText` call passed in explicitly: guard on a loaded image;
set loading, clear the error and the offsets; on success replace the
annotation list (flagging an empty result); on a thrown error set the
error message.  The annotation list is only written on the success
path. -/
def processTranslation (s : AppState) (result : Except Unit (List Annotation)) :
    AppState :=
  if s.original.isNone then s
  else
    let s1 := { s with loading := true, error := none, labelOffsets := emptyOffsets }
    match result with
    | Except.ok results =>
        let s2 := { s1 with annotations := results }
        let s3 :=
          if results.length = 0 then
            { s2 with error := some "No English text detected to translate." }
          else s2
        { s3 with loading := false }
    | Except.error _ =>
        { s1 with error := some "Failed to process translation. Please try again.",
                  loading := false }

/-- C1: the pixel delta applied to a label's default origin is
`(x·W/1000, y·H/1000)`, and for two resolutions the deltas stand in the
exact ratios `W2/W1` horizontally and `H2/H1` vertically, so a stored
normalized offset reproduces the same relative position at any
resolution. -/
theorem offset_resolution_independent (off : Offset) (W₁ H₁ W₂ H₂ : ℚ)
    (hW₁ : 0 < W₁) (hH₁ : 0 < H₁) (hW₂ : 0 < W₂) (hH₂ : 0 < H₂) :
    pixelOffset off W₁ H₁ = (off.x * W₁ / 1000, off.y * H₁ / 1000) ∧
    pixelOffset off W₂ H₂ = (off.x * W₂ / 1000, off.y * H₂ / 1000) ∧
    (pixelOffset off W₂ H₂).1 = (W₂ / W₁) * (pixelOffset off W₁ H₁).1 ∧
    (pixelOffset off W₂ H₂).2 = (H₂ / H₁) * (pixelOffset off W₁ H₁).2 := by
  refine ⟨?_, ?_, ?_, ?_⟩
  · simp only [pixelOffset, Prod.mk.injEq]
    constructor <;> ring
  · simp only [pixelOffset, Prod.mk.injEq]
    constructor <;> ring
  · simp only [pixelOffset]
    field_simp
    ring
  · simp only [pixelOffset]
    field_simp
    ring

/-- Witness for `offset_resolution_independent` at offset `(30, -20)`
and resolutions `1000×500` and `2000×1000`. -/
theorem offset_resolution_independent_w :
    pixelOffset { x := 30, y := -20 } 2000 1000 =
      ((2000 : ℚ) / 1000 * (pixelOffset { x := 30, y := -20 } 1000 500).1,
       (1000 : ℚ) / 500 * (pixelOffset { x := 30, y := -20 } 1000 500).2) := by
  have h := offset_resolution_independent { x := 30, y := -20 } 1000 500 2000 1000
    (by norm_num) (by norm_num) (by norm_num) (by norm_num)
  exact Prod.ext h.2.2.1 h.2.2.2

/-- C2: the pixel rectangle is `x = xmin·W/1000`, `y = ymin·H/1000`,
`w = (xmax−xmin)·W/1000`, `h = (ymax−ymin)·H/1000`; in particular the box
`[100,100,200,300]` on a 1000×1000 canvas yields
`{x:100, y:100, w:200, h:100}`. -/
theorem toPixelRect_formula :
    (∀ (b : Box2d) (W H : ℚ),
      toPixelRect b W H =
        { x := b.xmin * W / 1000, y := b.ymin * H / 1000,
          w := (b.xmax - b.xmin) * W / 1000, h := (b.ymax - b.ymin) * H / 1000 }) ∧
    toPixelRect { ymin := 100, xmin := 100, ymax := 200, xmax := 300 } 1000 1000 =
      { x := 100, y := 100, w := 200, h := 100 } := by
  constructor
  · intro b W H
    simp only [toPixelRect, Rect.mk.injEq]
    refine ⟨by ring, by ring, by ring, by ring⟩
  · simp only [toPixelRect, Rect.mk.injEq]
    norm_num

/-- C3: vertical placement: when `ymax > 850` the label sits above the
box at `rect.y − labelHeight − gap` (so strictly above `rect.y`), else
below the box at `rect.y + rect.h + gap` (so strictly below the box's
bottom edge); the gap is the fixed margin 4.  In particular `ymax = 900`
places the label above and `ymax = 500` below. -/
theorem label_vertical_placement (b : Box2d) (r : Rect) (bw bh : ℚ)
    (hbh : 0 ≤ bh) :
    (b.ymax > 850 →
      (baseLabelPos b r bw bh).2 = r.y - bh - 4 ∧ (baseLabelPos b r bw bh).2 < r.y) ∧
    (¬ b.ymax > 850 →
      (baseLabelPos b r bw bh).2 = r.y + r.h + 4 ∧
        r.y + r.h < (baseLabelPos b r bw bh).2) := by
  constructor
  · intro hy
    simp only [baseLabelPos, if_pos hy]
    constructor
    · trivial
    · linarith
  · intro hy
    simp only [baseLabelPos, if_neg hy]
    constructor
    · trivial
    · linarith

/-- Witness for `label_vertical_placement`: a box with `ymax = 900` has
its label above (`labelY < rect.y`), one with `ymax = 500` below. -/
theorem label_vertical_placement_w :
    (baseLabelPos { ymin := 700, xmin := 200, ymax := 900, xmax := 400 }
        { x := 200, y := 700, w := 200, h := 200 } 80 30).2 < 700 ∧
    700 + 200 <
      (baseLabelPos { ymin := 300, xmin := 200, ymax := 500, xmax := 400 }
        { x := 200, y := 700, w := 200, h := 200 } 80 30).2 := by
  constructor
  · exact ((label_vertical_placement
      { ymin := 700, xmin := 200, ymax := 900, xmax := 400 }
      { x := 200, y := 700, w := 200, h := 200 } 80 30 (by norm_num)).1
      (by norm_num)).2
  · exact ((label_vertical_placement
      { ymin := 300, xmin := 200, ymax := 500, xmax := 400 }
      { x := 200, y := 700, w := 200, h := 200 } 80 30 (by norm_num)).2
      (by norm_num)).2

/-- C4: horizontal placement: centered on the box
(`x = rect.x + rect.w/2 − labelWidth/2`) by default, but a box with
`xmin < 100` gets its label left edge aligned to the box's left edge
(`labelX = rect.x`), and otherwise a box with `xmax > 900` gets the
label's right edge aligned to the box's right edge
(`labelX = rect.x + rect.w − labelWidth`); in particular `xmin = 0`
yields `labelX = rect.x`. -/
theorem label_horizontal_placement (b : Box2d) (r : Rect) (bw bh : ℚ) :
    (b.xmin < 100 → (baseLabelPos b r bw bh).1 = r.x) ∧
    (¬ b.xmin < 100 → b.xmax > 900 →
      (baseLabelPos b r bw bh).1 = r.x + r.w - bw) ∧
    (¬ b.xmin < 100 → ¬ b.xmax > 900 →
      (baseLabelPos b r bw bh).1 = r.x + r.w / 2 - bw / 2) ∧
    (b.xmin = 0 → (baseLabelPos b r bw bh).1 = r.x) := by
  refine ⟨?_, ?_, ?_, ?_⟩
  · intro hx
    simp only [baseLabelPos, if_pos hx]
  · intro hx hx'
    simp only [baseLabelPos, if_neg hx, if_pos hx']
  · intro hx hx'
    simp only [baseLabelPos, if_neg hx, if_neg hx']
  · intro hx
    have hx100 : b.xmin < 100 := by rw [hx]; norm_num
    simp only [baseLabelPos, if_pos hx100]

/-- Witness for `label_horizontal_placement`: a box with `xmin = 0` on a
1000×1000 canvas gets `labelX = rect.x = 0`. -/
theorem label_horizontal_placement_w :
    (baseLabelPos { ymin := 100, xmin := 0, ymax := 200, xmax := 400 }
      (toPixelRect { ymin := 100, xmin := 0, ymax := 200, xmax := 400 } 1000 1000)
      120 30).1 =
    (toPixelRect { ymin := 100, xmin := 0, ymax := 200, xmax := 400 } 1000 1000).x :=
  (label_horizontal_placement { ymin := 100, xmin := 0, ymax := 200, xmax := 400 }
    (toPixelRect { ymin := 100, xmin := 0, ymax := 200, xmax := 400 } 1000 1000)
    120 30).2.2.2 rfl

/-- C5: an annotation whose trimmed original equals its trimmed
translation gets no highlight box and no label from the compositor, yet
it stays in the annotation list at its original index and remains
addressable there for offset and text editing. -/
theorem identical_skipped (measure : String → ℚ) (W H : ℚ)
    (s : AppState) (i : Nat) (ann : Annotation) (t : String) (off : Offset)
    (hmem : s.annotations[i]? = some ann)
    (hid : jsTrim ann.original = jsTrim ann.translation) :
    drawAnn measure W H s.labelOffsets i ann = [] ∧
    (handleTextChange s i t).annotations[i]? =
      some { ann with translation := t } ∧
    getOffset (setOffset s.labelOffsets i off) i = off := by
  have hb : isIdentical ann = true := by
    simp [isIdentical, hid]
  refine ⟨?_, ?_, ?_⟩
  · simp [drawAnn, hb]
  · have hlt : i < s.annotations.length := by
      rcases List.getElem?_eq_some_iff.mp hmem with ⟨hlt, _⟩
      exact hlt
    simp only [handleTextChange, hmem]
    exact List.getElem?_set_eq_of_lt _ hlt
  · simp [getOffset, setOffset]

/-- A pure-numeral annotation whose original and translation coincide
(the kind the skip rule is about). -/
def numeralAnn : Annotation :=
  { original := "2024", translation := "2024",
    box_2d := { ymin := 0, xmin := 0, ymax := 100, xmax := 100 } }

/-- A one-annotation app state holding `numeralAnn`. -/
def numeralState : AppState :=
  { original := none, annotations := [numeralAnn],
    labelOffsets := emptyOffsets, error := none, loading := false }

/-- Witness for `identical_skipped`: the pure-numeral annotation
`"2024" / "2024"` at index 0 is not drawn but is still editable. -/
theorem identical_skipped_w :
    drawAnn (fun _ => 50) 1000 1000 numeralState.labelOffsets 0 numeralAnn = [] ∧
    (handleTextChange numeralState 0 "x").annotations[0]? =
      some { numeralAnn with translation := "x" } :=
  have h := identical_skipped (fun _ => 50) 1000 1000 numeralState 0 numeralAnn
    "x" { x := 1, y := 2 } (by decide) (by decide)
  ⟨h.1, h.2.1⟩

/-- C6: for a well-formed box (`0 ≤ ymin ≤ ymax ≤ 1000`,
`0 ≤ xmin ≤ xmax ≤ 1000`) and positive canvas dimensions, the pixel
rectangle has nonnegative `x, y, w, h` and fits inside the canvas:
`x + w ≤ W` and `y + h ≤ H`. -/
theorem toPixelRect_in_bounds (b : Box2d) (W H : ℚ)
    (hy0 : 0 ≤ b.ymin) (hy1 : b.ymin ≤ b.ymax) (hy2 : b.ymax ≤ 1000)
    (hx0 : 0 ≤ b.xmin) (hx1 : b.xmin ≤ b.xmax) (hx2 : b.xmax ≤ 1000)
    (hW : 0 < W) (hH : 0 < H) :
    0 ≤ (toPixelRect b W H).x ∧ 0 ≤ (toPixelRect b W H).y ∧
    0 ≤ (toPixelRect b W H).w ∧ 0 ≤ (toPixelRect b W H).h ∧
    (toPixelRect b W H).x + (toPixelRect b W H).w ≤ W ∧
    (toPixelRect b W H).y + (toPixelRect b W H).h ≤ H := by
  simp only [toPixelRect]
  refine ⟨?_, ?_, ?_, ?_, ?_, ?_⟩
  · exact mul_nonneg (by linarith [div_nonneg hx0 (by norm_num : (0:ℚ) ≤ 1000)]) hW.le
  · exact mul_nonneg (by linarith [div_nonneg hy0 (by norm_num : (0:ℚ) ≤ 1000)]) hH.le
  · exact mul_nonneg (div_nonneg (by linarith) (by norm_num)) hW.le
  · exact mul_nonneg (div_nonneg (by linarith) (by norm_num)) hH.le
  · nlinarith
  · nlinarith

/-- Witness for `toPixelRect_in_bounds` at box `[100,100,200,300]` on a
640×480 canvas. -/
theorem toPixelRect_in_bounds_w :
    (toPixelRect { ymin := 100, xmin := 100, ymax := 200, xmax := 300 } 640 480).x +
      (toPixelRect { ymin := 100, xmin := 100, ymax := 200, xmax := 300 } 640 480).w
      ≤ 640 :=
  (toPixelRect_in_bounds { ymin := 100, xmin := 100, ymax := 200, xmax := 300 }
    640 480 (by norm_num) (by norm_num) (by norm_num) (by norm_num) (by norm_num)
    (by norm_num) (by norm_num) (by norm_num)).2.2.2.2.1

/-- C8: editing a label's text replaces `annotations[i].translation`
with the new string and changes nothing else: the entry keeps its
`original` and `box_2d`, every other index is unchanged, the list
length is unchanged, and the stored offsets (and the rest of the state)
are untouched. -/
theorem text_edit_in_place (s : AppState) (i : Nat) (t : String)
    (a : Annotation) (ha : s.annotations[i]? = some a) :
    (handleTextChange s i t).annotations[i]? =
      some { original := a.original, translation := t, box_2d := a.box_2d } ∧
    (∀ j, j ≠ i → (handleTextChange s i t).annotations[j]? = s.annotations[j]?) ∧
    (handleTextChange s i t).annotations.length = s.annotations.length ∧
    (handleTextChange s i t).labelOffsets = s.labelOffsets ∧
    (handleTextChange s i t).original = s.original := by
  have hlt : i < s.annotations.length := (List.getElem?_eq_some_iff.mp ha).1
  refine ⟨?_, ?_, ?_, rfl, rfl⟩
  · simp only [handleTextChange, ha]
    exact List.getElem?_set_eq_of_lt _ hlt
  · intro j hj
    simp only [handleTextChange, ha]
    exact List.getElem?_set_ne (fun h => hj h.symm)
  · simp only [handleTextChange, ha, List.length_set]

/-- Witness for `text_edit_in_place`: editing `numeralState`'s entry 0
to `"二〇二四"` keeps its original text and box. -/
theorem text_edit_in_place_w :
    (handleTextChange numeralState 0 "二〇二四").annotations[0]? =
      some { original := numeralAnn.original, translation := "二〇二四",
             box_2d := numeralAnn.box_2d } :=
  (text_edit_in_place numeralState 0 "二〇二四" numeralAnn (by decide)).1

/-- C9: an index with no stored offset yields `{x := 0, y := 0}`, the
pixel delta is `(0, 0)` at any resolution, and the compositor renders
that annotation exactly as it would with the empty offset store, i.e.
the label sits at its computed default origin. -/
theorem absent_offset_default (st : OffsetStore) (i : Nat)
    (h : st i = none) :
    getOffset st i = { x := 0, y := 0 } ∧
    (∀ W H : ℚ, pixelOffset (getOffset st i) W H = (0, 0)) ∧
    (∀ (measure : String → ℚ) (W H : ℚ) (ann : Annotation),
      drawAnn measure W H st i ann = drawAnn measure W H emptyOffsets i ann) := by
  have hg : getOffset st i = { x := 0, y := 0 } := by
    simp [getOffset, h]
  refine ⟨hg, ?_, ?_⟩
  · intro W H
    rw [hg]
    simp only [pixelOffset, Prod.mk.injEq]
    norm_num
  · intro measure W H ann
    simp only [drawAnn, hg]
    have : getOffset emptyOffsets i = { x := 0, y := 0 } := by
      simp [getOffset, emptyOffsets]
    rw [this]

/-- Witness for `absent_offset_default` at index 3 of the empty store. -/
theorem absent_offset_default_w :
    getOffset emptyOffsets 3 = { x := 0, y := 0 } ∧
    pixelOffset (getOffset emptyOffsets 3) 1000 500 = (0, 0) :=
  have h := absent_offset_default emptyOffsets 3 rfl
  ⟨h.1, h.2.1 1000 500⟩

/-- C10: when the detection call throws, `processTranslation` leaves the
annotation list exactly as it was before the run, but the offset store
is nonetheless emptied, since offsets are cleared at the start of the
run, before the detection result arrives. -/
theorem failed_run_clears_offsets (s : AppState)
    (h : s.original.isSome) :
    (processTranslation s (Except.error ())).annotations = s.annotations ∧
    (processTranslation s (Except.error ())).labelOffsets = emptyOffsets ∧
    (processTranslation s (Except.error ())).error =
      some "Failed to process translation. Please try again." := by
  have h' : s.original.isNone = false := by
    cases ho : s.original with
    | none => rw [ho] at h; simp at h
    | some v => simp [ho]
  simp [processTranslation, h']

/-- Witness for `failed_run_clears_offsets`: a failing run on a state
with one annotation and a stored offset keeps the annotation and wipes
the offset store. -/
theorem failed_run_clears_offsets_w :
    (processTranslation
      { numeralState with original := some "img",
                          labelOffsets := setOffset emptyOffsets 0 { x := 5, y := 7 } }
      (Except.error ())).annotations = [numeralAnn] ∧
    (processTranslation
      { numeralState with original := some "img",
                          labelOffsets := setOffset emptyOffsets 0 { x := 5, y := 7 } }
      (Except.error ())).labelOffsets = emptyOffsets :=
  have h := failed_run_clears_offsets
    { numeralState with original := some "img",
                        labelOffsets := setOffset emptyOffsets 0 { x := 5, y := 7 } }
    (by decide)
  ⟨h.1, h.2.1⟩

/-- A malformed annotation: the box is inverted in both axes
(`ymin > ymax`, `xmin > xmax`). -/
def badAnn : Annotation :=
  { original := "EXIT", translation := "出口",
    box_2d := { ymin := 200, xmin := 300, ymax := 100, xmax := 100 } }

/-- `true` iff a stroked rectangle lies inside the `W×H` canvas with
nonnegative extent — which is what the highlight stroke of any
coordinate-clamped box satisfies (`toPixelRect_in_bounds`).  Non-stroke
commands pass. -/
def rectClampedCmd (W H : ℚ) : DrawCmd → Bool
  | DrawCmd.strokeRect x y w h _ =>
      decide (0 ≤ x ∧ 0 ≤ y ∧ 0 ≤ w ∧ 0 ≤ h ∧ x + w ≤ W ∧ y + h ≤ H)
  | _ => true

/-- C7 counterexample: for the inverted box of `badAnn` on a 1000×1000
canvas the compositor neither skips the annotation nor draws a
clamped-coordinate rectangle: the emitted command list is nonempty and
its highlight stroke has negative width and height (`w = −200`,
`h = −100`), which no box clamped into `[0,1000]` with `ymin ≤ ymax`,
`xmin ≤ xmax` could produce.  The malformed coordinates are used
as-is. -/
theorem malformed_not_clamped_or_skipped :
    ¬ (drawAnn (fun _ => 50) 1000 1000 emptyOffsets 0 badAnn = [] ∨
       (drawAnn (fun _ => 50) 1000 1000 emptyOffsets 0 badAnn).all
         (rectClampedCmd 1000 1000) = true) := by
  have hid : isIdentical badAnn = false := by decide
  have hcmds : drawAnn (fun _ => 50) 1000 1000 emptyOffsets 0 badAnn =
      [DrawCmd.strokeRect 300 200 (-200) (-100) 3,
       DrawCmd.fillRect 155 104 90 40,
       DrawCmd.fillText "出口" 175 124] := by
    simp only [drawAnn, hid, Bool.false_eq_true, if_false]
    norm_num [toPixelRect, fontSize, baseLabelPos, getOffset, emptyOffsets,
      pixelOffset, badAnn, min_def, max_def]
  rintro (h | h)
  · rw [hcmds] at h
    cases h
  · rw [hcmds] at h
    simp only [List.all_cons, rectClampedCmd, Bool.and_eq_true,
      decide_eq_true_eq] at h
    have := h.1.2.2.2.1
    norm_num at this

/-- C7 amended: the compositor applies no clamping and no
malformedness-based skipping at all — for every annotation not excluded
by the identical-text rule, the highlight stroke uses the raw
`toPixelRect` of the box coordinates as-is (so an inverted box yields a
negative-extent rectangle; the arithmetic is total, so no crash). -/
theorem malformed_drawn_raw (measure : String → ℚ) (W H : ℚ)
    (offsets : OffsetStore) (i : Nat) (ann : Annotation)
    (h : isIdentical ann = false) :
    (drawAnn measure W H offsets i ann).head? =
      some (DrawCmd.strokeRect (toPixelRect ann.box_2d W H).x
        (toPixelRect ann.box_2d W H).y (toPixelRect ann.box_2d W H).w
        (toPixelRect ann.box_2d W H).h (max 2 (W * (3 / 1000)))) := by
  simp [drawAnn, h]

/-- Witness for `malformed_drawn_raw`: on `badAnn` the stroke is the raw
rectangle, whose width is the negative value `−200`. -/
theorem malformed_drawn_raw_w :
    (drawAnn (fun _ => 50) 1000 1000 emptyOffsets 0 badAnn).head? =
      some (DrawCmd.strokeRect (toPixelRect badAnn.box_2d 1000 1000).x
        (toPixelRect badAnn.box_2d 1000 1000).y
        (toPixelRect badAnn.box_2d 1000 1000).w
        (toPixelRect badAnn.box_2d 1000 1000).h
        (max 2 ((1000 : ℚ) * (3 / 1000)))) ∧
    (toPixelRect badAnn.box_2d 1000 1000).w = -200 :=
  ⟨malformed_drawn_raw (fun _ => 50) 1000 1000 emptyOffsets 0 badAnn (by decide),
   by norm_num [toPixelRect, badAnn]⟩
